import Mathlib

/-!
Verification of the IDE Link Resolution & Launch subsystem of the
codestream-trello Power-Up.

Strings are modelled as `List Char` (`Str`); JS string literals enter through
`chars`.  The embedded definitions follow the JavaScript sources:

* `IDEs`                  — the IDE catalogue (src/unnamed/part_000);
* `buildLink`, `joinQuery`— the inline deep-link construction of
                            `cardButtonCallback` (src/js/client.js lines 165-182);
* `cardButtonIde`, `cardButtonRoute`, `cardButtonLink`, `cardButtonStringLocals`,
  `cardButtonNavTarget`, `cardButtonVarsInScope`
                          — `cardButtonCallback` (src/js/client.js lines 148-185);
* `settingsRenderValue`, `settingsSaveCall`, `settingsLoadCall`, `saveClickHandler`
                          — src/js/settings.js, with the key-value store addressed
                            through the four-argument API documented in
                            src/js/client.js lines 39-77;
* `encodeURIComponentList` / `decodeURIComponentList`
                          — the ECMAScript `encodeURIComponent` /
                            `decodeURIComponent` primitives used by the code
                            (percent-encoding of UTF-8 bytes, unreserved set
                            `A-Z a-z 0-9 - _ . ! ~ * ' ( )`, uppercase hex).
-/

abbrev Str : Type := List Char

/-- Character data of a Lean string literal, used to transcribe JS literals. -/
def chars (s : String) : Str := s.data

/-- An entry of the IDE catalogue (src/unnamed/part_000): display name, protocol
base of the deep link, persisted moniker, download URL, and the optional UI
grouping flag `sepAfter` (absent in the source = `false`). -/
structure IDERecord where
  ideName : Str
  protocol : Str
  moniker : Str
  downloadUrl : Str
  sepAfter : Bool := false
deriving DecidableEq

/-- The fixed IDE catalogue, transcribed entry by entry from
src/unnamed/part_000 (`export const IDEs = [...]`), in declaration order. -/
def IDEs : List IDERecord := [
  { ideName := chars "VS Code",
    protocol := chars "vscode://codestream.codestream/",
    moniker := chars "vsc",
    downloadUrl := chars "https://marketplace.visualstudio.com/items?itemName=CodeStream.codestream" },
  { ideName := chars "VS Code Insiders",
    protocol := chars "vscode-insiders://codestream.codestream/",
    moniker := chars "vsc-insiders",
    downloadUrl := chars "https://marketplace.visualstudio.com/items?itemName=CodeStream.codestream" },
  { ideName := chars "Visual Studio",
    protocol := chars "codestream-vs://codestream/",
    moniker := chars "vs",
    downloadUrl := chars "https://marketplace.visualstudio.com/items?itemName=CodeStream.codestream-vs",
    sepAfter := true },
  { ideName := chars "Android Studio",
    protocol := chars "jetbrains://studio/codestream/",
    moniker := chars "jb-studio",
    downloadUrl := chars "https://plugins.jetbrains.com/plugin/12206-codestream" },
  { ideName := chars "IntelliJ IDEA",
    protocol := chars "jetbrains://idea/codestream/",
    moniker := chars "jb-idea",
    downloadUrl := chars "https://plugins.jetbrains.com/plugin/12206-codestream" },
  { ideName := chars "PyCharm",
    protocol := chars "jetbrains://pycharm/codestream/",
    moniker := chars "jb-pycharm",
    downloadUrl := chars "https://plugins.jetbrains.com/plugin/12206-codestream" },
  { ideName := chars "WebStorm",
    protocol := chars "jetbrains://web-storm/codestream/",
    moniker := chars "jb-web-storm",
    downloadUrl := chars "https://plugins.jetbrains.com/plugin/12206-codestream" },
  { ideName := chars "PhpStorm",
    protocol := chars "jetbrains://php-storm/codestream/",
    moniker := chars "jb-phpstorm",
    downloadUrl := chars "https://plugins.jetbrains.com/plugin/12206-codestream" },
  { ideName := chars "RubyMine",
    protocol := chars "jetbrains://rubymine/codestream/",
    moniker := chars "jb-rubymine",
    downloadUrl := chars "https://plugins.jetbrains.com/plugin/12206-codestream" },
  { ideName := chars "Rider",
    protocol := chars "jetbrains://rd/codestream/",
    moniker := chars "jb-rider",
    downloadUrl := chars "https://plugins.jetbrains.com/plugin/12206-codestream" },
  { ideName := chars "CLion",
    protocol := chars "jetbrains://clion/codestream/",
    moniker := chars "jb-clion",
    downloadUrl := chars "https://plugins.jetbrains.com/plugin/12206-codestream" },
  { ideName := chars "GoLand",
    protocol := chars "jetbrains://goland/codestream/",
    moniker := chars "jb-goland",
    downloadUrl := chars "https://plugins.jetbrains.com/plugin/12206-codestream" },
  { ideName := chars "DataGrip",
    protocol := chars "jetbrains://datagrip/codestream/",
    moniker := chars "jb-datagrip",
    downloadUrl := chars "https://plugins.jetbrains.com/plugin/12206-codestream" },
  { ideName := chars "AppCode",
    protocol := chars "jetbrains://appcode/codestream/",
    moniker := chars "jb-appcode",
    downloadUrl := chars "https://plugins.jetbrains.com/plugin/12206-codestream",
    sepAfter := true },
  { ideName := chars "Atom",
    protocol := chars "atom://codestream/",
    moniker := chars "atom",
    downloadUrl := chars "https://atom.io/packages/codestream" }
]

/-- Modelled from the spec: the IDE Registry lookup contract of spec section
4.1 (`lookup(moniker) -> IDERecord | not found`); no file under src implements
a lookup (src/unnamed/part_000 only declares the data), so the contract is
embedded as a scan of the fixed catalogue by moniker. -/
def ideLookup (m : Str) : Option IDERecord :=
  IDEs.find? (fun r => r.moniker == m)

/-- One `{key, value}` member of the `query` array of the route object built in
src/js/client.js lines 157-164. -/
structure QueryParam where
  key : Str
  value : Str
deriving DecidableEq

/-- The route object consumed by the link construction in src/js/client.js
lines 165-182: `controller`, the optional `id` tested at line 166, the optional
`action`, and the `query` array.  `none` models an absent (`undefined`) field. -/
structure Route where
  controller : Str
  id : Option Str := none
  action : Option Str := none
  query : List QueryParam := []
deriving DecidableEq

/-- The query-joining loop of src/js/client.js lines 174-181: each `key=value`
pair is appended, with `&` appended after a pair exactly when more pairs
remain. -/
def joinQuery : List QueryParam → Str
  | [] => []
  | q :: rest =>
    (q.key ++ '=' :: q.value) ++ (match rest with
      | [] => []
      | _ :: _ => '&' :: joinQuery rest)

/-- The deep-link construction of src/js/client.js lines 165-182:
`protocol = protocolStart + route.controller`, then `"/" + route.id` under the
JS truthiness test `if (route.id)` (absent and empty both skip), then
`"/" + route.action` under `if (route.action)`, then, under
`if (route.query && route.query.length)`, the marker `"?1=1&"` followed by the
joined pairs. -/
def buildLink (protocolStart : Str) (route : Route) : Str :=
  let p1 := protocolStart ++ route.controller
  let p2 := match route.id with
    | some i => if i.isEmpty then p1 else p1 ++ '/' :: i
    | none => p1
  let p3 := match route.action with
    | some a => if a.isEmpty then p2 else p2 ++ '/' :: a
    | none => p2
  match route.query with
  | [] => p3
  | _ :: _ => p3 ++ chars "?1=1&" ++ joinQuery route.query

/-- The deep-link shape claimed by C1, following the claim's words: the
optional segments are appended whenever the field is present (`some`),
including a present-but-empty string. -/
def buildLinkClaimC1 (protocolPrefix : Str) (route : Route) : Str :=
  protocolPrefix ++ route.controller
    ++ (match route.id with
        | some i => '/' :: i
        | none => [])
    ++ (match route.action with
        | some a => '/' :: a
        | none => [])
    ++ (match route.query with
        | [] => []
        | _ :: _ => chars "?1=1&" ++ joinQuery route.query)

/-- The amended deep-link shape: as C1, except that a present-but-empty
`resourceId` or `action` is skipped (the source tests JS truthiness, under
which the empty string counts as absent). -/
def buildLinkAmended (protocolPrefix : Str) (route : Route) : Str :=
  protocolPrefix ++ route.controller
    ++ (match route.id with
        | some i => if i.isEmpty then [] else '/' :: i
        | none => [])
    ++ (match route.action with
        | some a => if a.isEmpty then [] else '/' :: a
        | none => [])
    ++ (match route.query with
        | [] => []
        | _ :: _ => chars "?1=1&" ++ joinQuery route.query)

/-- A route whose `resourceId` is present but empty: the corner at which the
code's truthiness test departs from C1's "if resourceId is present". -/
def routeEmptyId : Route := { controller := chars "c", id := some [], action := none, query := [] }

/-- Claim C1 (counterexample): at a route whose `resourceId` is present but
empty, the code's builder omits the `"/"` segment that the claim's shape
appends, so the builder does not produce the claimed string. -/
theorem buildLink_claimC1_counterexample :
    buildLink (chars "p") routeEmptyId ≠ buildLinkClaimC1 (chars "p") routeEmptyId := by
  decide

/-- Claim C1 (amended): for every protocol prefix and route, the builder
produces exactly the protocol prefix concatenated with the controller; then
`"/" + resourceId` if the resourceId is present and non-empty; then
`"/" + action` if the action is present and non-empty; then, if the
query-parameter list is non-empty, the marker `"?1=1&"` followed by the
`key=value` pairs in input order joined by `"&"` with no trailing separator. -/
theorem buildLink_eq_amended (p : Str) (r : Route) :
    buildLink p r = buildLinkAmended p r := by
  rcases r with ⟨c, id, act, q⟩
  cases id with
  | none =>
    cases act with
    | none =>
      cases q <;> simp [buildLink, buildLinkAmended, List.append_assoc]
    | some a =>
      cases ha : a.isEmpty <;> cases q <;>
        simp [buildLink, buildLinkAmended, ha, List.append_assoc]
  | some i =>
    cases hi : i.isEmpty <;> cases act with
    | none =>
      cases q <;> simp [buildLink, buildLinkAmended, hi, List.append_assoc]
    | some a =>
      cases ha : a.isEmpty <;> cases q <;>
        simp [buildLink, buildLinkAmended, hi, ha, List.append_assoc]

/-- Claim C9: registry invariants of the fixed IDE catalogue — monikers are
pairwise distinct (lookup is deterministic), protocols are pairwise distinct,
and every protocol is non-empty and ends with `'/'`.  The catalogue itself is a
closed constant of the embedding, matching its fixed, never-mutated lifecycle. -/
theorem registry_invariants :
    (IDEs.map (fun r => r.moniker)).Nodup
    ∧ (IDEs.map (fun r => r.protocol)).Nodup
    ∧ (IDEs.all (fun r => !r.protocol.isEmpty && (r.protocol.getLast? == some '/'))) = true := by
  decide

/-- The unreserved set of ECMAScript `encodeURIComponent`: `A-Z a-z 0-9` and
`- _ . ! ~ * ' ( )` (code points 45, 95, 46, 33, 126, 42, 39, 40, 41); every
other character is percent-encoded. -/
def isUriUnreserved (c : Char) : Bool :=
  let n := c.toNat
  (65 ≤ n && n ≤ 90) || (97 ≤ n && n ≤ 122) || (48 ≤ n && n ≤ 57) ||
    n == 45 || n == 95 || n == 46 || n == 33 || n == 126 || n == 42 ||
    n == 39 || n == 40 || n == 41

/-- Uppercase hexadecimal digit characters, as emitted by
`encodeURIComponent`. -/
def hexDigitChar : Nat → Char
  | 0 => '0' | 1 => '1' | 2 => '2' | 3 => '3' | 4 => '4'
  | 5 => '5' | 6 => '6' | 7 => '7' | 8 => '8' | 9 => '9'
  | 10 => 'A' | 11 => 'B' | 12 => 'C' | 13 => 'D' | 14 => 'E' | 15 => 'F'
  | _ => '0'

/-- Percent-encoding of one byte: `%` followed by two uppercase hex digits. -/
def pctEncodeByte (b : Nat) : Str :=
  ['%', hexDigitChar (b / 16), hexDigitChar (b % 16)]

/-- Percent-encoding of a byte sequence. -/
def pctEncodeBytes : List Nat → Str
  | [] => []
  | b :: rest => pctEncodeByte b ++ pctEncodeBytes rest

/-- The UTF-8 byte sequence of a Unicode code point (1 to 4 bytes). -/
def utf8Bytes (n : Nat) : List Nat :=
  if n < 128 then [n]
  else if n < 2048 then [192 + n / 64, 128 + n % 64]
  else if n < 65536 then [224 + n / 4096, 128 + n / 64 % 64, 128 + n % 64]
  else [240 + n / 262144, 128 + n / 4096 % 64, 128 + n / 64 % 64, 128 + n % 64]

/-- `encodeURIComponent` on one character: unreserved characters pass through,
every other character becomes the percent-encoding of its UTF-8 bytes. -/
def encodeChar (c : Char) : Str :=
  if isUriUnreserved c then [c] else pctEncodeBytes (utf8Bytes c.toNat)

/-- ECMAScript `encodeURIComponent`, over character lists. -/
def encodeURIComponentList : Str → Str
  | [] => []
  | c :: rest => encodeChar c ++ encodeURIComponentList rest

/-- UTF-8 sequence of a character list (helper for the decoding direction). -/
def utf8EncodeAll : Str → List Nat
  | [] => []
  | c :: rest => utf8Bytes c.toNat ++ utf8EncodeAll rest

/-- Value of one hexadecimal digit character (either case), `none` on
non-digits. -/
def hexVal (c : Char) : Option Nat :=
  let n := c.toNat
  if 48 ≤ n ∧ n ≤ 57 then some (n - 48)
  else if 65 ≤ n ∧ n ≤ 70 then some (n - 55)
  else if 97 ≤ n ∧ n ≤ 102 then some (n - 87)
  else none

/-- First decoding pass of `decodeURIComponent`: percent triples become their
byte, any other character contributes its own UTF-8 bytes; `none` on a
malformed percent triple. -/
def pctToBytes : Str → Option (List Nat)
  | [] => some []
  | c :: rest =>
    if c = '%' then
      match rest with
      | h1 :: h2 :: rest1 =>
        match hexVal h1, hexVal h2 with
        | some a, some b => (pctToBytes rest1).map (fun t => (16 * a + b) :: t)
        | _, _ => none
      | _ => none
    else (pctToBytes rest).map (fun t => utf8Bytes c.toNat ++ t)

/-- Decoding of one UTF-8 sequence: given a lead byte and the following bytes,
the code point and the remaining bytes, rejecting stray or missing
continuation bytes, overlong encodings, surrogate code points and out-of-range
code points. -/
def utf8DecodeStep (b0 : Nat) (rest : List Nat) : Option (Nat × List Nat) :=
  if b0 < 128 then some (b0, rest)
  else if b0 < 192 then none
  else if b0 < 224 then
    match rest with
    | b1 :: rest1 =>
      if 128 ≤ b1 ∧ b1 < 192 then
        if 128 ≤ (b0 - 192) * 64 + (b1 - 128) then
          some ((b0 - 192) * 64 + (b1 - 128), rest1)
        else none
      else none
    | [] => none
  else if b0 < 240 then
    match rest with
    | b1 :: b2 :: rest2 =>
      if (128 ≤ b1 ∧ b1 < 192) ∧ (128 ≤ b2 ∧ b2 < 192) then
        if 2048 ≤ (b0 - 224) * 4096 + (b1 - 128) * 64 + (b2 - 128)
            ∧ ((b0 - 224) * 4096 + (b1 - 128) * 64 + (b2 - 128) < 55296
               ∨ 57343 < (b0 - 224) * 4096 + (b1 - 128) * 64 + (b2 - 128)) then
          some ((b0 - 224) * 4096 + (b1 - 128) * 64 + (b2 - 128), rest2)
        else none
      else none
    | _ => none
  else if b0 < 248 then
    match rest with
    | b1 :: b2 :: b3 :: rest3 =>
      if (128 ≤ b1 ∧ b1 < 192) ∧ (128 ≤ b2 ∧ b2 < 192) ∧ (128 ≤ b3 ∧ b3 < 192) then
        if 65536 ≤ (b0 - 240) * 262144 + (b1 - 128) * 4096 + (b2 - 128) * 64 + (b3 - 128)
            ∧ (b0 - 240) * 262144 + (b1 - 128) * 4096 + (b2 - 128) * 64 + (b3 - 128)
              < 1114112 then
          some ((b0 - 240) * 262144 + (b1 - 128) * 4096 + (b2 - 128) * 64 + (b3 - 128), rest3)
        else none
      else none
    | _ => none
  else none

set_option maxRecDepth 2000 in
lemma utf8DecodeStep_length (b0 : Nat) (rest : List Nat) (cp : Nat) (rest2 : List Nat)
    (h : utf8DecodeStep b0 rest = some (cp, rest2)) : rest2.length ≤ rest.length := by
  unfold utf8DecodeStep at h
  split at h
  all_goals try split at h
  all_goals try split at h
  all_goals try split at h
  all_goals try split at h
  all_goals try split at h
  all_goals try split at h
  all_goals try split at h
  all_goals (cases h)
  all_goals (try simp [List.length_cons])
  all_goals (try omega)

/-- Second decoding pass of `decodeURIComponent`: UTF-8 decoding of the byte
sequence, one sequence at a time via `utf8DecodeStep`. -/
def utf8Decode (bs : List Nat) : Option Str :=
  match bs with
  | [] => some []
  | b0 :: rest =>
    match h : utf8DecodeStep b0 rest with
    | some (cp, rest2) => (utf8Decode rest2).map (fun t => Char.ofNat cp :: t)
    | none => none
termination_by bs.length
decreasing_by
  simp_wf
  apply Nat.lt_of_le_of_lt (utf8DecodeStep_length _ _ _ _ (by assumption))
  exact Nat.lt_succ_self _

/-- ECMAScript `decodeURIComponent`, over character lists: percent-decode to
bytes, then UTF-8-decode. -/
def decodeURIComponentList (l : Str) : Option Str :=
  (pctToBytes l).bind utf8Decode

/-- The Power-Up context handle `t` received by the callbacks; its only datum
relevant here is the board-scoped preference store view (what
`t.get("board", ..., key)` could return for this board). -/
structure TrelloT where
  boardGet : Str → Option Str

/-- The hard-coded `ide` object of src/js/client.js lines 149-154; the stored
preference and the registry are not consulted. -/
def cardButtonIde : IDERecord :=
  { ideName := chars "VS Code",
    protocol := chars "vscode://codestream.codestream/",
    moniker := chars "vsc",
    downloadUrl := chars "https://marketplace.visualstudio.com/items?itemName=CodeStream.codestream" }

/-- The `route` object of src/js/client.js lines 157-164: controller
`"startWork"`, action `"open"`, no `id` field, and a query of exactly two
pairs — `url` bound to `encodeURIComponent(window.location.href)` and
`providerId` bound to the literal `"trello*com"` — in that order. -/
def cardButtonRoute (href : Str) : Route :=
  { controller := chars "startWork",
    id := none,
    action := some (chars "open"),
    query := [⟨chars "url", encodeURIComponentList href⟩,
              ⟨chars "providerId", chars "trello*com"⟩] }

/-- The deep link accumulated into the local variable `protocol` by
`cardButtonCallback` (src/js/client.js lines 156-182), given the page URL
`window.location.href`.  The handle `t` is received but never consulted. -/
def cardButtonLink (_t : TrelloT) (href : Str) : Str :=
  buildLink cardButtonIde.protocol (cardButtonRoute href)

/-- The string-valued local variables of `cardButtonCallback` in scope at its
final statement (src/js/client.js line 184), as an association list:
`protocolStart` holds the protocol base and `protocol` holds the built link
(the remaining locals `t`, `ide`, `route`, `query` hold objects and `len`, `i`
hold numbers). -/
def cardButtonStringLocals (t : TrelloT) (href : Str) : List (Str × Str) :=
  [(chars "protocolStart", cardButtonIde.protocol),
   (chars "protocol", cardButtonLink t href)]

/-- The value the final statement `window.location.href = url;` (src/js/client.js
line 184) tries to navigate to: the binding of the identifier `url` among the
string-valued locals — there is none. -/
def cardButtonNavTarget (t : TrelloT) (href : Str) : Option Str :=
  (cardButtonStringLocals t href).lookup (chars "url")

/-- Every identifier bound in scope at src/js/client.js line 184: the parameter
and the `var` declarations of `cardButtonCallback` (lines 148-176), the
script-level declarations of client.js (lines 4, 79-82, 84, 88, 148), and the
ambient browser/library globals the script uses. -/
def cardButtonVarsInScope : List Str :=
  [chars "t", chars "ide", chars "protocolStart", chars "route",
   chars "protocol", chars "len", chars "i", chars "query",
   chars "Promise", chars "GLITCH_ICON", chars "WHITE_ICON", chars "GRAY_ICON",
   chars "IDE_ICON", chars "randomBadgeColor", chars "getBadges",
   chars "cardButtonCallback", chars "TrelloPowerUp", chars "window",
   chars "document", chars "console", chars "Math"]

/-- The identifiers read by the final navigation statement
`window.location.href = url;` of src/js/client.js line 184. -/
def navAssignmentIds : List Str := [chars "window", chars "url"]

/-- Claim C10 (the code contradicts it): the final navigation statement of
`cardButtonCallback` reads the identifier `url`, which is bound nowhere in
scope at that point — while the built link sits in the bound local `protocol` —
so evaluating the statement raises a ReferenceError on every invocation and
the callback never completes normally. -/
theorem cardButton_nav_unbound_identifier :
    (chars "url") ∈ navAssignmentIds
    ∧ (chars "url") ∉ cardButtonVarsInScope
    ∧ (chars "protocol") ∈ cardButtonVarsInScope
    ∧ chars "url" ≠ chars "protocol" := by
  decide

/-- Claim C5 (the code contradicts it): for every context and page URL, the
navigation target of the final statement is the unbound identifier `url`
(`none` among the string locals), not the built link, which sits in the local
`protocol`; the assignment therefore raises before any navigation occurs and
the built string is discarded. -/
theorem cardButton_navigation_mismatch (t : TrelloT) (href : Str) :
    cardButtonNavTarget t href = none
    ∧ (cardButtonStringLocals t href).lookup (chars "protocol")
        = some (buildLink cardButtonIde.protocol (cardButtonRoute href)) := by
  exact ⟨rfl, rfl⟩

/-- The selection control's value after the settings render callback
(src/js/settings.js lines 8-18): `IDESelector.value` is assigned the loaded
preference exactly when the loaded value is truthy and matches `/[a-z]+/`
(contains at least one lowercase ASCII letter); otherwise the control keeps
`initial`, its value before the callback (its first/default option). -/
def settingsRenderValue (initial : Str) (savedIde : Option Str) : Str :=
  match savedIde with
  | none => initial
  | some s => if s.any (fun c => 97 ≤ c.toNat && c.toNat ≤ 122) then s else initial

/-- Claim C6 (counterexample): the stored value `"zzz"` matches no registry
moniker, yet the render callback copies it verbatim into the control instead
of falling back to the first/default entry (`"vsc"`). -/
theorem settingsRender_claimC6_counterexample :
    settingsRenderValue (chars "vsc") (some (chars "zzz")) = chars "zzz"
    ∧ (chars "zzz") ∉ IDEs.map (fun r => r.moniker)
    ∧ chars "zzz" ≠ chars "vsc" := by
  decide

/-- Claim C6 (amended): on settings load the control is set to the stored
value exactly when that value contains a lowercase ASCII letter — in
particular every known registry moniker is reflected into the control — and
an absent value or one with no lowercase letter leaves the control at its
initial (first/default) selection; but an unknown value containing a lowercase
letter is copied verbatim rather than falling back. -/
theorem settingsRender_amended (initial s : Str) :
    settingsRenderValue initial none = initial
    ∧ settingsRenderValue initial (some s)
        = (if s.any (fun c => 97 ≤ c.toNat && c.toNat ≤ 122) then s else initial)
    ∧ (IDEs.map (fun r => r.moniker)).map (fun m => settingsRenderValue initial (some m))
        = IDEs.map (fun r => r.moniker)
    ∧ settingsRenderValue initial (some (chars "zzz")) = chars "zzz" := by
  exact ⟨rfl, rfl, rfl, rfl⟩

/-- An address in the scoped key-value store for board-scoped data, following
the four-argument API documented in src/js/client.js lines 39-77
(`t.set('scope', 'visibility', 'key', 'value')`, `t.get('scope', 'visibility',
'key')`): the current board, a visibility namespace, and a key (`none` models
a missing/undefined key argument). -/
structure StoreAddr where
  boardId : Str
  visibility : Str
  key : Option Str
deriving DecidableEq

/-- The external scoped key-value store for board-scoped data: a partial map
from addresses to stored values. -/
def PrefStore : Type := StoreAddr → Option Str

/-- A write to the external store (`none` stores nothing at the address). -/
def storeSet (σ : PrefStore) (a : StoreAddr) (v : Option Str) : PrefStore :=
  fun a2 => if a2 = a then v else σ a2

/-- The empty store. -/
def emptyStore : PrefStore := fun _ => none

/-- The save of src/js/settings.js line 21, `t.set("board", "ide", value)`,
embedded against the documented four-argument signature: scope `board` (the
current board), visibility argument `"ide"`, key argument the selected value,
and no fourth (value) argument. -/
def settingsSaveCall (σ : PrefStore) (boardId : Str) (v : Str) : PrefStore :=
  storeSet σ ⟨boardId, chars "ide", some v⟩ none

/-- The load of src/js/settings.js line 9, `t.get("board", "ide")`, embedded
against the documented signature: scope `board`, visibility argument `"ide"`,
and no key argument. -/
def settingsLoadCall (σ : PrefStore) (boardId : Str) : Option Str :=
  σ ⟨boardId, chars "ide", none⟩

/-- Modelled from the spec: the Preference Store Adapter addressing of spec
sections 4.2 and 6 — scope `board`, visibility `shared`, fixed key `"ide"` —
which no file under src realizes (settings.js omits the visibility argument). -/
def savePrefSpec (σ : PrefStore) (boardId : Str) (v : Str) : PrefStore :=
  storeSet σ ⟨boardId, chars "shared", some (chars "ide")⟩ (some v)

/-- Modelled from the spec: the corresponding load at scope `board`,
visibility `shared`, key `"ide"`. -/
def loadPrefSpec (σ : PrefStore) (boardId : Str) : Option Str :=
  σ ⟨boardId, chars "shared", some (chars "ide")⟩

/-- Claim C7 (the code contradicts it): under the store API documented in
client.js itself, saving `"vsc"` for board `"B1"` through the settings code
and then loading for `"B1"` returns absent, not `"vsc"` — the save addresses
visibility `"ide"` with the moniker in the key slot and stores no value, the
load reads a missing key, and nothing is written at the claimed address
(visibility `shared`, key `"ide"`), where the spec-modelled adapter does
round-trip; loading a never-saved board is absent either way. -/
theorem settings_roundtrip_fails :
    settingsLoadCall (settingsSaveCall emptyStore (chars "B1") (chars "vsc")) (chars "B1") = none
    ∧ (settingsSaveCall emptyStore (chars "B1") (chars "vsc"))
        ⟨chars "B1", chars "shared", some (chars "ide")⟩ = none
    ∧ loadPrefSpec (savePrefSpec emptyStore (chars "B1") (chars "vsc")) (chars "B1")
        = some (chars "vsc")
    ∧ loadPrefSpec (savePrefSpec emptyStore (chars "B1") (chars "vsc")) (chars "B2") = none := by
  refine ⟨?_, ?_, ?_, ?_⟩ <;>
    simp [settingsLoadCall, settingsSaveCall, loadPrefSpec, savePrefSpec, storeSet, emptyStore,
      chars]

/-- Outcome of a settled JS promise: fulfilled, or rejected with an error. -/
inductive PResult (α : Type) where
  | ok : α → PResult α
  | err : Str → PResult α
deriving DecidableEq

/-- A settled promise chain together with the host-surface effects it
performed, in order (effect names such as `"closePopup"`). -/
structure Eff (α : Type) where
  effects : List Str
  result : PResult α
deriving DecidableEq

/-- JS `p.then(f)`: on fulfillment run the continuation and accumulate its
effects; on rejection skip the continuation and propagate the same rejection. -/
def effThen {α β : Type} (p : Eff α) (f : α → Eff β) : Eff β :=
  match p.result with
  | .ok a => ⟨p.effects ++ (f a).effects, (f a).result⟩
  | .err e => ⟨p.effects, .err e⟩

/-- The `t.closePopup()` call: one host effect, fulfilled. -/
def closePopupEff : Eff Unit := ⟨[chars "closePopup"], .ok ()⟩

/-- The save click handler of src/js/settings.js lines 20-24:
`t.set(...).then(function () { t.closePopup(); })`, given the settled outcome
of the `t.set` call.  The handler contains no other effect — in particular it
never writes the selection control. -/
def saveClickHandler (setOutcome : Eff Unit) : Eff Unit :=
  effThen setOutcome (fun _ => closePopupEff)

/-- Claim C8: for every outcome of the persistence call, the popup-close
effect occurs exactly when the write fulfilled, and a rejected write
propagates the same rejection out of the handler (surfaced, not swallowed)
with no close effect — the surface stays open, and the handler touches no
other state, so the control keeps the value it displayed. -/
theorem saveClick_error_handling (r : PResult Unit) (e : Str) :
    ((chars "closePopup") ∈ (saveClickHandler ⟨[], r⟩).effects ↔ r = PResult.ok ())
    ∧ saveClickHandler ⟨[], PResult.err e⟩ = ⟨[], PResult.err e⟩ := by
  constructor
  · cases r with
    | ok a => simp [saveClickHandler, effThen, closePopupEff]
    | err e2 => simp [saveClickHandler, effThen, closePopupEff]
  · rfl

lemma char_valid_nat (c : Char) :
    c.toNat < 55296 ∨ (57343 < c.toNat ∧ c.toNat < 1114112) := by
  rcases c.valid with h | ⟨h1, h2⟩
  · exact Or.inl (UInt32.toNat_lt_of_lt (by decide) h)
  · exact Or.inr ⟨UInt32.lt_toNat_of_lt (by decide) h1, UInt32.toNat_lt_of_lt (by decide) h2⟩

lemma char_toNat_lt (c : Char) : c.toNat < 1114112 := by
  rcases char_valid_nat c with h | ⟨_, h2⟩
  · omega
  · exact h2

lemma hexVal_hexDigitChar (d : Nat) (hd : d < 16) :
    hexVal (hexDigitChar d) = some d := by
  interval_cases d <;> decide

lemma pctToBytes_pctEncodeByte (b : Nat) (hb : b < 256) (rest : Str) :
    pctToBytes (pctEncodeByte b ++ rest) = (pctToBytes rest).map (fun t => b :: t) := by
  have h1 : hexVal (hexDigitChar (b / 16)) = some (b / 16) :=
    hexVal_hexDigitChar _ (by omega)
  have h2 : hexVal (hexDigitChar (b % 16)) = some (b % 16) :=
    hexVal_hexDigitChar _ (by omega)
  have hb16 : 16 * (b / 16) + b % 16 = b := by omega
  simp [pctEncodeByte, pctToBytes, h1, h2, hb16]

lemma pctToBytes_pctEncodeBytes (bs : List Nat) (h : ∀ b ∈ bs, b < 256) (rest : Str) :
    pctToBytes (pctEncodeBytes bs ++ rest) = (pctToBytes rest).map (fun t => bs ++ t) := by
  induction bs with
  | nil =>
    simp [pctEncodeBytes]
  | cons b bs ih =>
    have hb : b < 256 := h b (List.mem_cons_self b bs)
    have hbs : ∀ x ∈ bs, x < 256 := fun x hx => h x (List.mem_cons_of_mem b hx)
    rw [pctEncodeBytes, List.append_assoc, pctToBytes_pctEncodeByte b hb, ih hbs]
    cases pctToBytes rest <;> simp

lemma utf8Bytes_lt (n : Nat) (hn : n < 1114112) : ∀ b ∈ utf8Bytes n, b < 256 := by
  intro b hb
  rw [utf8Bytes] at hb
  split at hb
  · simp at hb; omega
  · split at hb
    · simp at hb
      rcases hb with h | h <;> omega
    · split at hb
      · simp at hb
        rcases hb with h | h | h <;> omega
      · simp at hb
        rcases hb with h | h | h | h <;> omega

lemma pctToBytes_encodeChar (c : Char) (rest : Str) :
    pctToBytes (encodeChar c ++ rest)
      = (pctToBytes rest).map (fun t => utf8Bytes c.toNat ++ t) := by
  rw [encodeChar]
  split
  · rename_i hc
    have hne : c ≠ '%' := by
      intro h
      rw [h] at hc
      simp [isUriUnreserved] at hc
    rw [List.singleton_append, pctToBytes.eq_def]
    simp [hne]
  · exact pctToBytes_pctEncodeBytes _ (utf8Bytes_lt _ (char_toNat_lt c)) rest

lemma pctToBytes_encode (s : Str) :
    pctToBytes (encodeURIComponentList s) = some (utf8EncodeAll s) := by
  induction s with
  | nil => rfl
  | cons c rest ih =>
    rw [encodeURIComponentList, pctToBytes_encodeChar, ih, utf8EncodeAll]
    rfl

lemma utf8Decode_cons_of_step (b0 cp : Nat) (rest rest2 : List Nat)
    (h : utf8DecodeStep b0 rest = some (cp, rest2)) :
    utf8Decode (b0 :: rest) = (utf8Decode rest2).map (fun t => Char.ofNat cp :: t) := by
  rw [utf8Decode]
  split
  · rename_i cp2 rest3 heq
    rw [h] at heq
    cases heq
    rfl
  · rename_i heq
    rw [h] at heq
    cases heq

lemma utf8Decode_utf8Bytes_nat (n : Nat) (rest : List Nat)
    (hval : n < 55296 ∨ (57343 < n ∧ n < 1114112)) :
    utf8Decode (utf8Bytes n ++ rest) = (utf8Decode rest).map (fun t => Char.ofNat n :: t) := by
  have hn : n < 1114112 := by omega
  by_cases h1 : n < 128
  · have hb : utf8Bytes n = [n] := by rw [utf8Bytes, if_pos h1]
    rw [hb, List.singleton_append]
    apply utf8Decode_cons_of_step
    unfold utf8DecodeStep
    rw [if_pos h1]
  · by_cases h2 : n < 2048
    · have hb : utf8Bytes n = [192 + n / 64, 128 + n % 64] := by
        rw [utf8Bytes, if_neg h1, if_pos h2]
      rw [hb, List.cons_append, List.singleton_append]
      apply utf8Decode_cons_of_step
      have e0 : 128 ≤ n := by omega
      have e1 : ¬ (192 + n / 64 < 128) := by omega
      have e2 : ¬ (192 + n / 64 < 192) := by omega
      have e3 : 192 + n / 64 < 224 := by omega
      have e4 : 128 ≤ 128 + n % 64 := by omega
      have e5 : 128 + n % 64 < 192 := by omega
      have ecp : (192 + n / 64 - 192) * 64 + (128 + n % 64 - 128) = n := by omega
      unfold utf8DecodeStep
      simp [e1, e2, e3, e4, e5, ecp, e0]
      omega
    · by_cases h3 : n < 65536
      · have hb : utf8Bytes n = [224 + n / 4096, 128 + n / 64 % 64, 128 + n % 64] := by
          rw [utf8Bytes, if_neg h1, if_neg h2, if_pos h3]
        rw [hb, List.cons_append, List.cons_append, List.singleton_append]
        apply utf8Decode_cons_of_step
        have e1 : ¬ (224 + n / 4096 < 128) := by omega
        have e2 : ¬ (224 + n / 4096 < 192) := by omega
        have e3 : ¬ (224 + n / 4096 < 224) := by omega
        have e4 : 224 + n / 4096 < 240 := by omega
        have e5 : 128 ≤ 128 + n / 64 % 64 := by omega
        have e6 : 128 + n / 64 % 64 < 192 := by omega
        have e7 : 128 ≤ 128 + n % 64 := by omega
        have e8 : 128 + n % 64 < 192 := by omega
        have ecp : (224 + n / 4096 - 224) * 4096 + (128 + n / 64 % 64 - 128) * 64
            + (128 + n % 64 - 128) = n := by omega
        have e9 : 2048 ≤ n := by omega
        have e10 : n < 55296 ∨ 57343 < n := by omega
        unfold utf8DecodeStep
        simp [e1, e2, e3, e4, e5, e6, e7, e8, ecp, e9, e10]
        omega
      · have hb : utf8Bytes n
            = [240 + n / 262144, 128 + n / 4096 % 64, 128 + n / 64 % 64, 128 + n % 64] := by
          rw [utf8Bytes, if_neg h1, if_neg h2, if_neg h3]
        rw [hb, List.cons_append, List.cons_append, List.cons_append, List.singleton_append]
        apply utf8Decode_cons_of_step
        have e1 : ¬ (240 + n / 262144 < 128) := by omega
        have e2 : ¬ (240 + n / 262144 < 192) := by omega
        have e3 : ¬ (240 + n / 262144 < 224) := by omega
        have e4 : ¬ (240 + n / 262144 < 240) := by omega
        have e5 : 240 + n / 262144 < 248 := by omega
        have e6 : 128 ≤ 128 + n / 4096 % 64 := by omega
        have e7 : 128 + n / 4096 % 64 < 192 := by omega
        have e8 : 128 ≤ 128 + n / 64 % 64 := by omega
        have e9 : 128 + n / 64 % 64 < 192 := by omega
        have e10 : 128 ≤ 128 + n % 64 := by omega
        have e11 : 128 + n % 64 < 192 := by omega
        have ecp : (240 + n / 262144 - 240) * 262144 + (128 + n / 4096 % 64 - 128) * 4096
            + (128 + n / 64 % 64 - 128) * 64 + (128 + n % 64 - 128) = n := by omega
        have e12 : 65536 ≤ n := by omega
        unfold utf8DecodeStep
        simp [e1, e2, e3, e4, e5, e6, e7, e8, e9, e10, e11, ecp, e12, hn]
        omega

lemma utf8Decode_utf8EncodeAll (s : Str) :
    utf8Decode (utf8EncodeAll s) = some s := by
  induction s with
  | nil => simp [utf8EncodeAll, utf8Decode]
  | cons c rest ih =>
    rw [utf8EncodeAll, utf8Decode_utf8Bytes_nat c.toNat _ (char_valid_nat c), ih]
    simp [Char.ofNat_toNat]

/-- Round-trip law of the encoding primitives: percent-decoding an
`encodeURIComponent`-encoded string reproduces the original exactly. -/
theorem decode_encode_roundtrip (s : Str) :
    decodeURIComponentList (encodeURIComponentList s) = some s := by
  rw [decodeURIComponentList, pctToBytes_encode]
  simpa using utf8Decode_utf8EncodeAll s

lemma cardButtonLink_eq (t : TrelloT) (href : Str) :
    cardButtonLink t href
      = chars "vscode://codestream.codestream/startWork/open?1=1&url="
        ++ encodeURIComponentList href ++ chars "&providerId=trello*com" := rfl

lemma hexDigitChar_safe (d : Nat) (hd : d < 16) :
    hexDigitChar d ≠ '&' ∧ hexDigitChar d ≠ '=' := by
  interval_cases d <;> exact ⟨by decide, by decide⟩

lemma encodeChar_mem_safe (c x : Char) (hx : x ∈ encodeChar c) : x ≠ '&' ∧ x ≠ '=' := by
  rw [encodeChar] at hx
  split at hx
  · rename_i hc
    simp at hx
    subst hx
    constructor <;> intro h <;> rw [h] at hc <;> simp [isUriUnreserved] at hc
  · rename_i hc
    have hb := utf8Bytes_lt c.toNat (char_toNat_lt c)
    generalize hbs : utf8Bytes c.toNat = bs at hx hb
    clear hbs hc
    induction bs with
    | nil => simp [pctEncodeBytes] at hx
    | cons b rest ih =>
      rw [pctEncodeBytes] at hx
      rcases List.mem_append.mp hx with hx1 | hx2
      · have hb256 : b < 256 := hb b (List.mem_cons_self b rest)
        have h16a : b / 16 < 16 := by omega
        have h16b : b % 16 < 16 := by omega
        rw [pctEncodeByte] at hx1
        simp at hx1
        rcases hx1 with h | h | h
        · subst h; constructor <;> decide
        · subst h; exact hexDigitChar_safe _ h16a
        · subst h; exact hexDigitChar_safe _ h16b
      · exact ih hx2 (fun x hxm => hb x (List.mem_cons_of_mem b hxm))

lemma encode_mem_safe (s : Str) (x : Char) (hx : x ∈ encodeURIComponentList s) :
    x ≠ '&' ∧ x ≠ '=' := by
  induction s with
  | nil => simp [encodeURIComponentList] at hx
  | cons c rest ih =>
    rw [encodeURIComponentList] at hx
    rcases List.mem_append.mp hx with h | h
    · exact encodeChar_mem_safe c x h
    · exact ih h

/-- A context with no stored preference. -/
def tDefault : TrelloT := ⟨fun _ => none⟩

/-- A context whose board stores the known moniker `"atom"` under the
preference key `"ide"`. -/
def tAtom : TrelloT :=
  ⟨fun k => if k = chars "ide" then some (chars "atom") else none⟩

/-- The link start asserted by claim C2's scenario. -/
def claimC2LinkStart : Str :=
  chars "vscode://codestream.codestream/startWork/open?1=1&providerId=trello%2Acom&id=abc123&tokenId=xYz9&title=Fix%20bug&body=&url=https%3A%2F%2Ftrello.com%2Fc%2FxYz9"

set_option maxRecDepth 40000 in
/-- Claim C2 (counterexample): at the claim's own card (page URL
`https://trello.com/c/xYz9`), the produced link does not begin with the
claimed string — the code's query is `url` then `providerId` only, built from
the page URL, with no `id`, `tokenId`, `title` or `body` parameters. -/
theorem cardButton_query_claimC2_counterexample :
    (cardButtonLink tDefault (chars "https://trello.com/c/xYz9")).take claimC2LinkStart.length
      ≠ claimC2LinkStart
    ∧ (cardButtonRoute (chars "https://trello.com/c/xYz9")).query.map (fun q => q.key)
        ≠ [chars "providerId", chars "id", chars "tokenId", chars "title", chars "body",
           chars "url"] := by
  constructor <;> decide

/-- Claim C2 (amended): for every context and page URL, the route passed to
the link construction has the fixed controller `"startWork"`, the fixed action
`"open"`, no resourceId, and exactly two query parameters — `url` bound to the
percent-encoded page URL, then `providerId` bound to the literal
`"trello*com"`, in that order; for the VS Code protocol the produced link is
`vscode://codestream.codestream/startWork/open?1=1&url=` followed by the
encoded page URL and `&providerId=trello*com` (card id, short id, title and
description are not included). -/
theorem cardButton_route_amended (t : TrelloT) (href : Str) :
    (cardButtonRoute href).controller = chars "startWork"
    ∧ (cardButtonRoute href).action = some (chars "open")
    ∧ (cardButtonRoute href).id = none
    ∧ (cardButtonRoute href).query
        = [⟨chars "url", encodeURIComponentList href⟩,
           ⟨chars "providerId", chars "trello*com"⟩]
    ∧ cardButtonLink t href
        = chars "vscode://codestream.codestream/startWork/open?1=1&url="
          ++ encodeURIComponentList href ++ chars "&providerId=trello*com" :=
  ⟨rfl, rfl, rfl, rfl, cardButtonLink_eq t href⟩

/-- Claim C3: for every context and page URL, the only arbitrary query value
(the page URL) appears in the built link as exactly its
`encodeURIComponent`-encoding, sandwiched between the literal
`...startWork/open?1=1&url=` segment (controller, action and keys emitted
literally) and the literal unencoded `&providerId=trello*com` pair; the
encoding round-trips (percent-decoding the encoded value reproduces the
original exactly); and the encoded value contains neither `&` nor `=`, so the
`&`-delimited `key=value` pair decomposition of the link is the evident one. -/
theorem cardButton_encoding_roundtrip (t : TrelloT) (href : Str) :
    cardButtonLink t href
      = chars "vscode://codestream.codestream/startWork/open?1=1&url="
        ++ encodeURIComponentList href ++ chars "&providerId=trello*com"
    ∧ decodeURIComponentList (encodeURIComponentList href) = some href
    ∧ (encodeURIComponentList href).all (fun x => !(x == '&') && !(x == '=')) = true :=
  ⟨cardButtonLink_eq t href, decode_encode_roundtrip href, by
    rw [List.all_eq_true]
    intro x hx
    obtain ⟨h1, h2⟩ := encode_mem_safe href x hx
    simp [h1, h2]⟩

set_option maxRecDepth 40000 in
/-- Claim C4 (counterexample): with the known non-default moniker `"atom"`
stored as the board's preference, the registry lookup of the stored preference
yields the Atom record, yet the produced link begins with the hard-coded VS
Code protocol, not Atom's — the stored preference is never read. -/
theorem cardButton_fallback_claimC4_counterexample :
    tAtom.boardGet (chars "ide") = some (chars "atom")
    ∧ ideLookup (chars "atom")
        = some { ideName := chars "Atom", protocol := chars "atom://codestream/",
                 moniker := chars "atom",
                 downloadUrl := chars "https://atom.io/packages/codestream" }
    ∧ (cardButtonLink tAtom (chars "https://trello.com/c/xYz9")).take 18
        ≠ chars "atom://codestream/"
    ∧ (cardButtonLink tAtom (chars "https://trello.com/c/xYz9")).take 31
        = chars "vscode://codestream.codestream/" := by
  refine ⟨?_, ?_, ?_, ?_⟩ <;> decide

/-- Claim C4 (amended): for every context and page URL, the produced link
begins with the hard-coded VS Code record's protocol — which equals the
protocol of the registry's first-declared (default) entry and is non-empty —
regardless of the stored preference; the fallback outcome for an absent or
unknown preference therefore coincides with the claim, but a known
non-default stored moniker is ignored rather than resolved by registry
lookup. -/
theorem cardButton_protocol_amended (t : TrelloT) (href : Str) :
    (∃ rest, cardButtonIde.protocol ++ rest = cardButtonLink t href)
    ∧ IDEs.head? = some cardButtonIde
    ∧ cardButtonIde.protocol ≠ [] :=
  ⟨⟨chars "startWork/open?1=1&url=" ++ encodeURIComponentList href
      ++ chars "&providerId=trello*com", rfl⟩, rfl, by decide⟩
